import Mathlib

/-!
Verification of the scheduling / process-supervision core of a live-stream
manager (`app.py`).  The registry is a table of stream rows (a pandas
DataFrame in the source); the supervisor keeps a runtime map from stream
index to the spawned encoder process.  The operations modelled below are
`run_ffmpeg`, `start_stream`, `stop_stream`, the process-exit monitor
closure `monitor_process`, the scheduler tick `check_scheduled_streams`,
row addition, and the JSON persistence pair
`save_stream_config` / `load_stream_config`.

Side effects that leave the program (calls on the YouTube API client) are
recorded as an output list of `RecCall` values; process launching is
modelled by an `Option Nat` supplying the OS pid on success and `none` on a
launch exception; `os.path.exists` is modelled by an oracle
`String → Bool`.
-/

/-- One row of the stream registry: the columns
`Video, Streaming Key, Jam Mulai, Status, PID, Is Shorts, Quality,
Broadcast ID, Channel` of the DataFrame (`app.py` line 410). -/
structure StreamRow where
  video : String
  streamingKey : String
  jamMulai : String
  status : String
  pid : Nat
  isShorts : Bool
  quality : String
  broadcastId : String
  channel : String
deriving DecidableEq, Repr, Inhabited

/-- A call made to the remote broadcast reconciler
(`start_youtube_broadcast` / `stop_youtube_broadcast`), keyed by broadcast
id and channel name. -/
inductive RecCall where
  | goLive (broadcastId channel : String)
  | complete (broadcastId channel : String)
deriving DecidableEq, Repr

/-- Membership test on the supervisor's process map
`st.session_state.processes` (a Python dict from stream index to process
object, modelled as an association list from index to pid). -/
def procMem : List (Nat × Nat) → Nat → Bool
  | [], _ => false
  | q :: ps, i => q.1 == i || procMem ps i

/-- Removal of a key from the process map (`del st.session_state.processes[i]`). -/
def procErase : List (Nat × Nat) → Nat → List (Nat × Nat)
  | [], _ => []
  | q :: ps, i => if q.1 = i then procErase ps i else q :: procErase ps i

/-- Insertion into the process map (`st.session_state.processes[i] = process`);
dict assignment overwrites, so the key is made unique. -/
def procInsert (ps : List (Nat × Nat)) (i p : Nat) : List (Nat × Nat) :=
  (i, p) :: procErase ps i

/-- The mutable session state: the stream registry
(`st.session_state.streams`) and the process map
(`st.session_state.processes`). -/
structure AppState where
  streams : List StreamRow
  processes : List (Nat × Nat)
deriving DecidableEq, Repr

/-- Pointwise update of list element `i` (models `df.loc[i, col] = v` for an
index that is present; every caller in the source passes an index obtained
from the DataFrame itself). -/
def updateAt {α : Type} : List α → Nat → (α → α) → List α
  | [], _, _ => []
  | a :: as, 0, f => f a :: as
  | a :: as, Nat.succ n, f => a :: updateAt as n f

/-- The row of the registry at index `i` (defaulted; used only under an
`i < length` guard). -/
def rowAt (s : AppState) (i : Nat) : StreamRow :=
  (s.streams[i]?).getD default

/-- Outcome of `start_stream`: the source signals these three cases by
`st.error` messages plus a boolean return (`app.py` lines 549-559). -/
inductive StartResult where
  | started
  | mediaNotFound
  | launchFailed
deriving DecidableEq, Repr

/-- Quality profile entry of the `quality_settings` table
(`app.py` lines 465-471). -/
structure QualitySetting where
  resolution : String
  bitrate : String
  fps : String
deriving DecidableEq, Repr

/-- The fixed quality table with fallback to the `720p` entry
(`quality_settings.get(quality, quality_settings['720p'])`,
`app.py` lines 465-473). -/
def quality_settings (q : String) : QualitySetting :=
  if q = "240p" then ⟨"426x240", "400k", "24"⟩
  else if q = "360p" then ⟨"640x360", "800k", "24"⟩
  else if q = "480p" then ⟨"854x480", "1200k", "30"⟩
  else if q = "720p" then ⟨"1280x720", "2500k", "30"⟩
  else if q = "1080p" then ⟨"1920x1080", "4500k", "30"⟩
  else ⟨"1280x720", "2500k", "30"⟩

/-- Digit-string parse, modelling Python `int(...)` on the digit strings
that occur here (raises, i.e. `none`, on a non-digit string). -/
def digitsToNat? (cs : List Char) : Option Nat :=
  if cs = [] then none
  else if cs.all Char.isDigit then
    some (cs.foldl (fun n c => n * 10 + (c.toNat - '0'.toNat)) 0)
  else none

/-- `settings['bitrate'].replace('k','')` then `str(int(..) * 2) + 'k'`:
the encoder buffer size is twice the nominal bitrate (`app.py` line 485). -/
def bufsizeOf (bitrate : String) : String :=
  toString ((digitsToNat? (bitrate.data.filter (fun c => c != 'k'))).getD 0 * 2) ++ "k"

/-- The exact FFmpeg argument vector built by `run_ffmpeg`
(`app.py` lines 476-497). -/
def run_ffmpeg_cmd (video_path streaming_key quality : String) : List String :=
  let settings := quality_settings quality
  ["ffmpeg", "-re",
   "-i", video_path,
   "-c:v", "libx264",
   "-preset", "veryfast",
   "-tune", "zerolatency",
   "-b:v", settings.bitrate,
   "-maxrate", settings.bitrate,
   "-bufsize", bufsizeOf settings.bitrate,
   "-s", settings.resolution,
   "-r", settings.fps,
   "-g", "60",
   "-keyint_min", "60",
   "-sc_threshold", "0",
   "-c:a", "aac",
   "-b:a", "128k",
   "-ar", "44100",
   "-ac", "2",
   "-f", "flv",
   "rtmp://a.rtmp.youtube.com/live2/" ++ streaming_key]

/-- State effect of `run_ffmpeg` (`app.py` lines 461-551): on a successful
`subprocess.Popen` (modelled by `launch = some pid`) and a non-`None`
`stream_index`, it stores the process handle, writes the pid and the status
`'Sedang Live'` into the row, and persists; on a launch exception it
returns `False` with nothing mutated.  A truthy `broadcast_id` schedules
the delayed `start_youtube_broadcast` call.  The spawned command itself is
`run_ffmpeg_cmd video_path streaming_key quality`. -/
def run_ffmpeg (launch : Option Nat) (stream_index : Option Nat)
    (broadcast_id channel_name : String) (s : AppState) :
    Bool × AppState × List RecCall :=
  match launch with
  | none => (false, s, [])
  | some pid =>
    let s1 : AppState :=
      match stream_index with
      | some i =>
        { streams := updateAt s.streams i
            (fun r => { r with pid := pid, status := "Sedang Live" }),
          processes := procInsert s.processes i pid }
      | none => s
    (true, s1,
      if broadcast_id = "" then [] else [RecCall.goLive broadcast_id channel_name])

/-- `start_stream` (`app.py` lines 553-559): refuses with the
"Video file not found" error when `os.path.exists(video_path)` (the oracle
`fs`) is false, otherwise delegates to `run_ffmpeg`. -/
def start_stream (fs : String → Bool) (video_path : String) (launch : Option Nat)
    (stream_index : Option Nat) (broadcast_id channel_name : String)
    (s : AppState) : StartResult × AppState × List RecCall :=
  if fs video_path then
    let r := run_ffmpeg launch stream_index broadcast_id channel_name s
    (if r.1 then StartResult.started else StartResult.launchFailed, r.2.1, r.2.2)
  else (StartResult.mediaNotFound, s, [])

/-- `stop_stream` (`app.py` lines 561-591): when the index has a process
handle and the row exists, it terminates the process, deletes the handle,
writes status `'Dihentikan'` and pid 0, persists, and (for a non-empty
broadcast id) asks the reconciler to complete the broadcast, returning
`True`; when the handle exists but the row read raises, the exception
handler returns `False`; when no handle exists the function falls off the
end and returns Python `None` (modelled by `none`). -/
def stop_stream (s : AppState) (stream_index : Nat) :
    Option Bool × AppState × List RecCall :=
  if procMem s.processes stream_index then
    match s.streams[stream_index]? with
    | some row =>
      (some true,
       { streams := updateAt s.streams stream_index
           (fun r => { r with status := "Dihentikan", pid := 0 }),
         processes := procErase s.processes stream_index },
       if row.broadcastId = "" then [] else [RecCall.complete row.broadcastId row.channel])
    | none => (some false, s, [])
  else (none, s, [])

/-- The process-exit watcher closure `monitor_process` (`app.py` lines
528-542): after the child exits, if the stream index is not `None` and is
still in the process map, it deletes the handle, writes status `'Selesai'`
and pid 0, persists, and (for a truthy broadcast id captured at launch
time) stops the broadcast; otherwise it does nothing. -/
def monitor_process (s : AppState) (stream_index : Option Nat)
    (broadcast_id channel_name : String) : AppState × List RecCall :=
  match stream_index with
  | some i =>
    if procMem s.processes i then
      ({ streams := updateAt s.streams i
           (fun r => { r with status := "Selesai", pid := 0 }),
         processes := procErase s.processes i },
       if broadcast_id = "" then [] else [RecCall.complete broadcast_id channel_name])
    else (s, [])
  | none => (s, [])

/-- `start_time.replace(' WIB', '')`: removes every occurrence of the
four-character suffix `" WIB"` (Python `str.replace` replaces all
non-overlapping occurrences left to right). -/
def stripWIB : List Char → List Char
  | ' ' :: 'W' :: 'I' :: 'B' :: rest => stripWIB rest
  | c :: rest => c :: stripWIB rest
  | [] => []

/-- Python `str.split(':')` for a single-character separator. -/
def splitOnChar (c : Char) : List Char → List (List Char)
  | [] => [[]]
  | x :: xs =>
    if x = c then [] :: splitOnChar c xs
    else
      match splitOnChar c xs with
      | [] => [[x]]
      | g :: gs => (x :: g) :: gs

/-- The schedule-string parse of `check_scheduled_streams`
(`app.py` lines 615-617): strip `' WIB'`, split on `':'`, and convert the
first two fields with `int(...)`; any failure raises (modelled by `none`)
and is caught by the surrounding `except`. -/
def parseSchedule (sched : String) : Option (Nat × Nat) :=
  match splitOnChar ':' (stripWIB sched.data) with
  | p0 :: p1 :: _ =>
    match digitsToNat? p0, digitsToNat? p1 with
    | some h, some m => some (h, m)
    | _, _ => none
  | _ => none

/-- The schedule evaluator embodied in `check_scheduled_streams`
(`app.py` lines 603, 624-625): the `"NOW"` sentinel is always due; a
parsed time-of-day is due when the current hour is later, or equal with
the current minute at or past the target minute; a parse failure
propagates as `none` (the caught exception). -/
def isDue (sched : String) (current_hour current_minute : Nat) : Option Bool :=
  if sched = "NOW" then some true
  else
    match parseSchedule sched with
    | some (h, m) =>
      some (decide (current_hour > h ∨ (current_hour = h ∧ current_minute ≥ m)))
    | none => none

/-- `streams.loc[idx, 'Jam Mulai'] = current_time` after a successful
scheduled start (`app.py` lines 608, 631). -/
def stampStart (s : AppState) (i : Nat) (nowStr : String) : AppState :=
  { s with streams := updateAt s.streams i (fun r => { r with jamMulai := nowStr }) }

/-- One iteration of the `check_scheduled_streams` loop body for row `i`
(`app.py` lines 598-635): rows whose status is not `'Menunggu'` are
skipped; a due row is started via `start_stream`, and on success its
`Jam Mulai` is overwritten with the formatted current time; a schedule
parse failure is caught and leaves the row alone. -/
def tickStep (fs : String → Bool) (launch : Nat → Option Nat)
    (curH curM : Nat) (nowStr : String)
    (acc : AppState × List RecCall) (i : Nat) : AppState × List RecCall :=
  match acc.1.streams[i]? with
  | none => acc
  | some row =>
    if row.status = "Menunggu" then
      match isDue row.jamMulai curH curM with
      | some true =>
        let r := start_stream fs row.video (launch i) (some i)
          row.broadcastId row.channel acc.1
        (if r.1 = StartResult.started then stampStart r.2.1 i nowStr else r.2.1,
         acc.2 ++ r.2.2)
      | _ => acc
    else acc

/-- The scheduler tick `check_scheduled_streams` (`app.py` lines 593-635):
iterate the loop body over every row index of the registry. -/
def check_scheduled_streams (fs : String → Bool) (launch : Nat → Option Nat)
    (curH curM : Nat) (nowStr : String) (s : AppState) :
    AppState × List RecCall :=
  (List.range s.streams.length).foldl (tickStep fs launch curH curM nowStr) (s, [])

/-- The isolated effect of one tick on one row: not-`'Menunggu'` rows and
not-due rows are untouched; a due row with an existing media file and a
successful launch gets the pid, status `'Sedang Live'`, and the start
timestamp. -/
def rowAfterTick (fs : String → Bool) (launch : Nat → Option Nat)
    (curH curM : Nat) (nowStr : String) (i : Nat) (row : StreamRow) : StreamRow :=
  if row.status = "Menunggu" then
    match isDue row.jamMulai curH curM with
    | some true =>
      if fs row.video then
        match launch i with
        | some p => { row with pid := p, status := "Sedang Live", jamMulai := nowStr }
        | none => row
      else row
    | _ => row
  else row

/-- Row addition from the add-stream form (`app.py` lines 978-991): the new
row is appended with status `'Menunggu'` and pid 0, then persisted. -/
def add_stream (s : AppState) (video streamKey schedTime : String)
    (isShorts : Bool) (quality bid channel : String) : AppState :=
  { s with streams := s.streams ++
      [{ video := video, streamingKey := streamKey, jamMulai := schedTime,
         status := "Menunggu", pid := 0, isShorts := isShorts,
         quality := quality, broadcastId := bid, channel := channel }] }

/-- Per-column presence in the persisted JSON file: pandas back-fills a
column that is absent from the loaded file for every row at once
(`app.py` lines 410-422). -/
structure ColumnSet where
  video : Bool
  streamingKey : Bool
  jamMulai : Bool
  status : Bool
  pid : Bool
  isShorts : Bool
  quality : Bool
  broadcastId : Bool
  channel : Bool
deriving DecidableEq, Repr

/-- All nine columns present. -/
def allColumns : ColumnSet := ⟨true, true, true, true, true, true, true, true, true⟩

/-- The persisted registry snapshot: which columns the file carries, and
the row data. -/
structure SavedConfig where
  cols : ColumnSet
  rows : List StreamRow
deriving DecidableEq, Repr

/-- `save_stream_config` (`app.py` lines 387-398): dump every row with every
column into `streams_config.json`. -/
def save_stream_config (streams : List StreamRow) : SavedConfig :=
  ⟨allColumns, streams⟩

/-- The back-fill of `load_stream_config` (`app.py` lines 409-422): a
missing `Channel` column becomes `'default'`; missing `Video`,
`Streaming Key`, `Jam Mulai`, `Status`, `Broadcast ID` become `''`; a
missing `Is Shorts` becomes `False`; a missing `Quality` becomes `'720p'`;
the remaining column (`PID`) becomes 0. -/
def fillMissing (cols : ColumnSet) (r : StreamRow) : StreamRow :=
  { video := if cols.video then r.video else "",
    streamingKey := if cols.streamingKey then r.streamingKey else "",
    jamMulai := if cols.jamMulai then r.jamMulai else "",
    status := if cols.status then r.status else "",
    pid := if cols.pid then r.pid else 0,
    isShorts := if cols.isShorts then r.isShorts else false,
    quality := if cols.quality then r.quality else "720p",
    broadcastId := if cols.broadcastId then r.broadcastId else "",
    channel := if cols.channel then r.channel else "default" }

/-- `load_stream_config` (`app.py` lines 400-427): a missing file
(`file = none`) or an empty `streams` list yields the empty registry;
otherwise the rows are loaded with missing columns back-filled. -/
def load_stream_config (file : Option SavedConfig) : List StreamRow :=
  match file with
  | none => []
  | some cfg => if cfg.rows.isEmpty then [] else cfg.rows.map (fillMissing cfg.cols)

/-- File contents visible after `k` completed primitive steps of
`save_stream_config`'s write (`with open('streams_config.json','w') as f:
json.dump(config, f)`, `app.py` lines 395-396): `open(..,'w')` truncates
the file in place, then the serialized bytes are appended one by one; there
is no temporary file and no rename.  `k = 0` is before the open, `k = 1`
just after the truncation, `k = new.length + 1` after the final byte. -/
def fileDuringSave (old new : List Char) (k : Nat) : List Char :=
  if k = 0 then old else new.take (k - 1)

/-- A registry row used as a concrete test fixture: freshly added,
waiting, immediate schedule. -/
def exWaitingRow : StreamRow :=
  { video := "demo.mp4", streamingKey := "key-123", jamMulai := "NOW",
    status := "Menunggu", pid := 0, isShorts := false, quality := "720p",
    broadcastId := "", channel := "default" }

/-- A state with a single waiting row and an empty process map. -/
def exIdleState : AppState := ⟨[exWaitingRow], []⟩

/-- A running version of the fixture row, with registered pid and a bound
broadcast. -/
def exRunRow : StreamRow :=
  { exWaitingRow with status := "Sedang Live", pid := 5, broadcastId := "bc1" }

/-- The fixture row with a malformed schedule string. -/
def exBadRow : StreamRow :=
  { exWaitingRow with video := "b.mp4", jamMulai := "garbage" }

/-- A state with a single running row whose process handle is registered. -/
def exRunState : AppState :=
  ⟨[exRunRow], [(0, 5)]⟩

/-- A three-row state for the tick: an immediate row, a row with a
malformed schedule string, and a well-formed scheduled row. -/
def exTickState : AppState :=
  ⟨[exWaitingRow, exBadRow,
    { exWaitingRow with video := "c.mp4", jamMulai := "09:00 WIB" }],
   []⟩

/-- A persisted file that lacks the optional columns
`PID, Quality, Broadcast ID, Channel` (back-fill test fixture). -/
def exPartialConfig : SavedConfig :=
  ⟨⟨true, true, true, true, false, true, false, false, false⟩, [exWaitingRow]⟩

/-- The invariant of claim C1: a row is in status `'Sedang Live'` exactly
when the supervisor holds a process handle for its index, exactly when its
stored pid is non-zero. -/
def statusRunningInv (s : AppState) : Prop :=
  ∀ i, i < s.streams.length →
    (((rowAt s i).status = "Sedang Live") ↔ procMem s.processes i = true) ∧
    (((rowAt s i).status = "Sedang Live") ↔ (rowAt s i).pid ≠ 0)

/-- The four status strings the source ever writes into the registry. -/
def statusVocab : List String := ["Menunggu", "Sedang Live", "Selesai", "Dihentikan"]

/-- Every row's status lies in the source's status vocabulary. -/
def statusInv (s : AppState) : Prop :=
  ∀ i, i < s.streams.length → (rowAt s i).status ∈ statusVocab

instance (s : AppState) : Decidable (statusRunningInv s) := by
  unfold statusRunningInv; exact inferInstance

instance (s : AppState) : Decidable (statusInv s) := by
  unfold statusInv; exact inferInstance


theorem updateAt_getElem? {α : Type} (l : List α) (i j : Nat) (f : α → α) :
    (updateAt l i f)[j]? = if j = i then (l[j]?).map f else l[j]? := by
  induction l generalizing i j with
  | nil => simp [updateAt]
  | cons a as ih =>
    cases i with
    | zero =>
      cases j with
      | zero => simp [updateAt]
      | succ jj => simp [updateAt]
    | succ ii =>
      cases j with
      | zero => simp [updateAt]
      | succ jj => simpa [updateAt] using ih ii jj

theorem updateAt_length {α : Type} (l : List α) (i : Nat) (f : α → α) :
    (updateAt l i f).length = l.length := by
  induction l generalizing i with
  | nil => rfl
  | cons a as ih =>
    cases i with
    | zero => rfl
    | succ ii => simpa [updateAt] using ih ii

theorem procMem_procErase_self (ps : List (Nat × Nat)) (i : Nat) :
    procMem (procErase ps i) i = false := by
  induction ps with
  | nil => rfl
  | cons q ps ih =>
    by_cases hq : q.1 = i
    · simpa [procErase, hq] using ih
    · simp [procErase, procMem, hq, ih]

theorem procMem_procErase_ne (ps : List (Nat × Nat)) (i j : Nat) (hj : j ≠ i) :
    procMem (procErase ps i) j = procMem ps j := by
  induction ps with
  | nil => rfl
  | cons q ps ih =>
    by_cases hq : q.1 = i
    · simp [procErase, procMem, hq, ih, Ne.symm hj]
    · simp [procErase, procMem, hq, ih]

theorem procMem_procInsert (ps : List (Nat × Nat)) (i p j : Nat) :
    procMem (procInsert ps i p) j = if j = i then true else procMem ps j := by
  by_cases hj : j = i
  · simp [procInsert, procMem, hj]
  · simp [procInsert, procMem, hj, procMem_procErase_ne ps i j hj, Ne.symm hj]

theorem getElem?_some_of_lt {α : Type} :
    ∀ (l : List α) (i : Nat), i < l.length → ∃ r, l[i]? = some r := by
  intro l
  induction l with
  | nil => intro i h; exact absurd h (Nat.not_lt_zero i)
  | cons a as ih =>
    intro i h
    cases i with
    | zero => exact ⟨a, by simp⟩
    | succ j =>
      obtain ⟨r, hr⟩ := ih j (Nat.lt_of_succ_lt_succ h)
      exact ⟨r, by simpa using hr⟩

theorem lt_of_getElem?_some {α : Type} :
    ∀ (l : List α) (i : Nat) (r : α), l[i]? = some r → i < l.length := by
  intro l
  induction l with
  | nil => intro i r h; exact absurd h (by simp)
  | cons a as ih =>
    intro i r h
    cases i with
    | zero => exact Nat.succ_pos _
    | succ j => exact Nat.succ_lt_succ (ih j r (by simpa using h))

theorem start_state_noFile (fs : String → Bool) (v : String) (launch : Option Nat)
    (idx : Option Nat) (bid ch : String) (s : AppState) (hf : fs v = false) :
    start_stream fs v launch idx bid ch s = (StartResult.mediaNotFound, s, []) := by
  simp [start_stream, hf]

theorem start_state_noLaunch (fs : String → Bool) (v : String)
    (idx : Option Nat) (bid ch : String) (s : AppState) :
    (start_stream fs v none idx bid ch s).2.1 = s := by
  by_cases hf : fs v = true <;>
    simp [start_stream, run_ffmpeg, hf]

theorem start_state_success (fs : String → Bool) (v : String) (p i : Nat)
    (bid ch : String) (s : AppState) (hf : fs v = true) :
    (start_stream fs v (some p) (some i) bid ch s).2.1 =
      { streams := updateAt s.streams i
          (fun r => { r with pid := p, status := "Sedang Live" }),
        processes := procInsert s.processes i p } := by
  simp [start_stream, run_ffmpeg, hf]

theorem stop_state_nomem (s : AppState) (i : Nat)
    (hmem : procMem s.processes i = false) :
    stop_stream s i = (none, s, []) := by
  simp [stop_stream, hmem]

theorem stop_state_mem (s : AppState) (i : Nat) (row : StreamRow)
    (hmem : procMem s.processes i = true) (hrow : s.streams[i]? = some row) :
    stop_stream s i =
      (some true,
       { streams := updateAt s.streams i
           (fun r => { r with status := "Dihentikan", pid := 0 }),
         processes := procErase s.processes i },
       if row.broadcastId = "" then []
       else [RecCall.complete row.broadcastId row.channel]) := by
  simp [stop_stream, hmem, hrow]

theorem monitor_state_nomem (s : AppState) (i : Nat) (bid ch : String)
    (hmem : procMem s.processes i = false) :
    monitor_process s (some i) bid ch = (s, []) := by
  simp [monitor_process, hmem]

theorem monitor_state_mem (s : AppState) (i : Nat) (bid ch : String)
    (hmem : procMem s.processes i = true) :
    monitor_process s (some i) bid ch =
      ({ streams := updateAt s.streams i
           (fun r => { r with status := "Selesai", pid := 0 }),
         processes := procErase s.processes i },
       if bid = "" then [] else [RecCall.complete bid ch]) := by
  simp [monitor_process, hmem]

theorem runningInv_start (s : AppState) (fs : String → Bool) (v : String)
    (launch : Option Nat) (i : Nat) (bid ch : String)
    (hinv : statusRunningInv s) (hp : launch ≠ some 0)
    (hi : i < s.streams.length) :
    statusRunningInv (start_stream fs v launch (some i) bid ch s).2.1 := by
  cases hfv : fs v with
  | false =>
    rw [start_state_noFile fs v launch (some i) bid ch s hfv]
    exact hinv
  | true =>
    cases launch with
    | none =>
      rw [start_state_noLaunch]
      exact hinv
    | some p =>
      have hp0 : p ≠ 0 := fun h => hp (by rw [h])
      rw [start_state_success fs v p i bid ch s hfv]
      intro j hj
      simp only [updateAt_length] at hj
      obtain ⟨row, hrow⟩ := getElem?_some_of_lt s.streams j hj
      by_cases hji : j = i
      · subst hji
        constructor
        · simp [rowAt, updateAt_getElem?, hrow, procMem_procInsert]
        · simp [rowAt, updateAt_getElem?, hrow, hp0]
      · have hprev := hinv j hj
        simp only [rowAt, updateAt_getElem?, hji, if_false, hrow,
          procMem_procInsert, if_neg hji] at hprev ⊢
        exact hprev

theorem runningInv_stop (s : AppState) (i : Nat)
    (hinv : statusRunningInv s) :
    statusRunningInv (stop_stream s i).2.1 := by
  cases hmem : procMem s.processes i with
  | false =>
    rw [stop_state_nomem s i hmem]
    exact hinv
  | true =>
    cases hrow : s.streams[i]? with
    | none =>
      simp [stop_stream, hmem, hrow]
      exact hinv
    | some row =>
      rw [stop_state_mem s i row hmem hrow]
      intro j hj
      simp only [updateAt_length] at hj
      obtain ⟨r, hr⟩ := getElem?_some_of_lt s.streams j hj
      by_cases hji : j = i
      · subst hji
        constructor
        · simp [rowAt, updateAt_getElem?, hr, procMem_procErase_self]
        · simp [rowAt, updateAt_getElem?, hr]
      · have hprev := hinv j hj
        simp only [rowAt, updateAt_getElem?, hji, if_neg hji, hr,
          procMem_procErase_ne s.processes i j hji] at hprev ⊢
        exact hprev

theorem runningInv_monitor (s : AppState) (i : Nat) (bid ch : String)
    (hinv : statusRunningInv s) :
    statusRunningInv (monitor_process s (some i) bid ch).1 := by
  cases hmem : procMem s.processes i with
  | false =>
    rw [monitor_state_nomem s i bid ch hmem]
    exact hinv
  | true =>
    rw [monitor_state_mem s i bid ch hmem]
    intro j hj
    simp only [updateAt_length] at hj
    obtain ⟨r, hr⟩ := getElem?_some_of_lt s.streams j hj
    by_cases hji : j = i
    · subst hji
      constructor
      · simp [rowAt, updateAt_getElem?, hr, procMem_procErase_self]
      · simp [rowAt, updateAt_getElem?, hr]
    · have hprev := hinv j hj
      simp only [rowAt, updateAt_getElem?, hji, if_neg hji, hr,
        procMem_procErase_ne s.processes i j hji] at hprev ⊢
      exact hprev

theorem getElem?_append_left {α : Type} :
    ∀ (l₁ l₂ : List α) (i : Nat), i < l₁.length → (l₁ ++ l₂)[i]? = l₁[i]? := by
  intro l₁
  induction l₁ with
  | nil => intro l₂ i h; exact absurd h (Nat.not_lt_zero i)
  | cons a as ih =>
    intro l₂ i h
    cases i with
    | zero => simp
    | succ j => simp [ih l₂ j (Nat.lt_of_succ_lt_succ h)]

theorem getElem?_append_length {α : Type} :
    ∀ (l : List α) (a : α), (l ++ [a])[l.length]? = some a := by
  intro l a
  induction l with
  | nil => simp
  | cons b bs ih => simp [ih]

theorem take_length_self {α : Type} : ∀ (l : List α), l.take l.length = l := by
  intro l
  induction l with
  | nil => rfl
  | cons a as ih => simp [ih]

theorem fillMissing_allColumns (r : StreamRow) : fillMissing allColumns r = r := by
  cases r
  simp [fillMissing, allColumns]

theorem statusInv_start (s : AppState) (fs : String → Bool) (v : String)
    (launch : Option Nat) (i : Nat) (bid ch : String)
    (hinv : statusInv s) :
    statusInv (start_stream fs v launch (some i) bid ch s).2.1 := by
  cases hfv : fs v with
  | false =>
    rw [start_state_noFile fs v launch (some i) bid ch s hfv]
    exact hinv
  | true =>
    cases launch with
    | none =>
      rw [start_state_noLaunch]
      exact hinv
    | some p =>
      rw [start_state_success fs v p i bid ch s hfv]
      intro j hj
      simp only [updateAt_length] at hj
      obtain ⟨row, hrow⟩ := getElem?_some_of_lt s.streams j hj
      by_cases hji : j = i
      · subst hji
        simp [rowAt, updateAt_getElem?, hrow, statusVocab]
      · have hprev := hinv j hj
        simp only [rowAt, updateAt_getElem?, hji, if_false, hrow] at hprev ⊢
        exact hprev

theorem statusInv_stop (s : AppState) (i : Nat) (hinv : statusInv s) :
    statusInv (stop_stream s i).2.1 := by
  cases hmem : procMem s.processes i with
  | false =>
    rw [stop_state_nomem s i hmem]
    exact hinv
  | true =>
    cases hrow : s.streams[i]? with
    | none =>
      simp [stop_stream, hmem, hrow]
      exact hinv
    | some row =>
      rw [stop_state_mem s i row hmem hrow]
      intro j hj
      simp only [updateAt_length] at hj
      obtain ⟨r, hr⟩ := getElem?_some_of_lt s.streams j hj
      by_cases hji : j = i
      · subst hji
        simp [rowAt, updateAt_getElem?, hr, statusVocab]
      · have hprev := hinv j hj
        simp only [rowAt, updateAt_getElem?, hji, if_false, hr] at hprev ⊢
        exact hprev

theorem statusInv_monitor (s : AppState) (i : Nat) (bid ch : String)
    (hinv : statusInv s) :
    statusInv (monitor_process s (some i) bid ch).1 := by
  cases hmem : procMem s.processes i with
  | false =>
    rw [monitor_state_nomem s i bid ch hmem]
    exact hinv
  | true =>
    rw [monitor_state_mem s i bid ch hmem]
    intro j hj
    simp only [updateAt_length] at hj
    obtain ⟨r, hr⟩ := getElem?_some_of_lt s.streams j hj
    by_cases hji : j = i
    · subst hji
      simp [rowAt, updateAt_getElem?, hr, statusVocab]
    · have hprev := hinv j hj
      simp only [rowAt, updateAt_getElem?, hji, if_false, hr] at hprev ⊢
      exact hprev

theorem statusInv_add (s : AppState) (v k t : String) (sh : Bool)
    (q bid ch : String) (hinv : statusInv s) :
    statusInv (add_stream s v k t sh q bid ch) := by
  intro j hj
  simp only [add_stream, List.length_append, List.length_cons,
    List.length_nil] at hj
  by_cases hlt : j < s.streams.length
  · have hprev := hinv j hlt
    simpa [rowAt, add_stream, getElem?_append_left s.streams _ j hlt]
      using hprev
  · have hj' : j = s.streams.length := by omega
    subst hj'
    simp [rowAt, add_stream, getElem?_append_length, statusVocab]

theorem start_state_getElem?_ne (fs : String → Bool) (v : String)
    (launch : Option Nat) (i : Nat) (bid ch : String) (s : AppState)
    (j : Nat) (hij : j ≠ i) :
    (start_stream fs v launch (some i) bid ch s).2.1.streams[j]? = s.streams[j]? := by
  cases hfv : fs v with
  | false => rw [start_state_noFile fs v launch (some i) bid ch s hfv]
  | true =>
    cases launch with
    | none => rw [start_state_noLaunch]
    | some p =>
      rw [start_state_success fs v p i bid ch s hfv]
      simp [updateAt_getElem?, hij]

theorem start_state_length (fs : String → Bool) (v : String)
    (launch : Option Nat) (i : Nat) (bid ch : String) (s : AppState) :
    (start_stream fs v launch (some i) bid ch s).2.1.streams.length =
      s.streams.length := by
  cases hfv : fs v with
  | false => rw [start_state_noFile fs v launch (some i) bid ch s hfv]
  | true =>
    cases launch with
    | none => rw [start_state_noLaunch]
    | some p =>
      rw [start_state_success fs v p i bid ch s hfv]
      simp [updateAt_length]

theorem tickStep_getElem?_ne (fs : String → Bool) (launch : Nat → Option Nat)
    (curH curM : Nat) (nowStr : String) (acc : AppState × List RecCall)
    (i j : Nat) (hij : j ≠ i) :
    (tickStep fs launch curH curM nowStr acc i).1.streams[j]? =
      acc.1.streams[j]? := by
  cases hi : acc.1.streams[i]? with
  | none => simp [tickStep, hi]
  | some row =>
    by_cases hst : row.status = "Menunggu"
    · cases hdue : isDue row.jamMulai curH curM with
      | none => simp [tickStep, hi, hst, hdue]
      | some b =>
        cases b with
        | false => simp [tickStep, hi, hst, hdue]
        | true =>
          have hs := start_state_getElem?_ne fs row.video (launch i) i
            row.broadcastId row.channel acc.1 j hij
          by_cases hr : (start_stream fs row.video (launch i) (some i)
              row.broadcastId row.channel acc.1).1 = StartResult.started <;>
            simp [tickStep, hi, hst, hdue, hr, stampStart, updateAt_getElem?,
              hij, hs]
    · simp [tickStep, hi, hst]

theorem tickStep_getElem?_self (fs : String → Bool) (launch : Nat → Option Nat)
    (curH curM : Nat) (nowStr : String) (acc : AppState × List RecCall)
    (i : Nat) :
    (tickStep fs launch curH curM nowStr acc i).1.streams[i]? =
      (acc.1.streams[i]?).map (rowAfterTick fs launch curH curM nowStr i) := by
  cases hi : acc.1.streams[i]? with
  | none => simp [tickStep, hi]
  | some row =>
    by_cases hst : row.status = "Menunggu"
    · cases hdue : isDue row.jamMulai curH curM with
      | none => simp [tickStep, hi, hst, hdue, rowAfterTick]
      | some b =>
        cases b with
        | false => simp [tickStep, hi, hst, hdue, rowAfterTick]
        | true =>
          cases hfv : fs row.video with
          | false =>
            have heq := start_state_noFile fs row.video (launch i) (some i)
              row.broadcastId row.channel acc.1 hfv
            simp [tickStep, hi, hst, hdue, heq, rowAfterTick, hfv]
          | true =>
            cases hl : launch i with
            | none =>
              simp [tickStep, hi, hst, hdue, rowAfterTick, hfv, hl,
                start_stream, run_ffmpeg]
            | some p =>
              simp [tickStep, hi, hst, hdue, rowAfterTick, hfv, hl,
                start_stream, run_ffmpeg, stampStart, updateAt_getElem?]
    · simp [tickStep, hi, hst, rowAfterTick]

theorem tickStep_length (fs : String → Bool) (launch : Nat → Option Nat)
    (curH curM : Nat) (nowStr : String) (acc : AppState × List RecCall)
    (i : Nat) :
    (tickStep fs launch curH curM nowStr acc i).1.streams.length =
      acc.1.streams.length := by
  cases hi : acc.1.streams[i]? with
  | none => simp [tickStep, hi]
  | some row =>
    by_cases hst : row.status = "Menunggu"
    · cases hdue : isDue row.jamMulai curH curM with
      | none => simp [tickStep, hi, hst, hdue]
      | some b =>
        cases b with
        | false => simp [tickStep, hi, hst, hdue]
        | true =>
          have hs := start_state_length fs row.video (launch i) i
            row.broadcastId row.channel acc.1
          by_cases hr : (start_stream fs row.video (launch i) (some i)
              row.broadcastId row.channel acc.1).1 = StartResult.started <;>
            simp [tickStep, hi, hst, hdue, hr, stampStart, updateAt_length, hs]
    · simp [tickStep, hi, hst]

theorem foldl_tickStep_not_mem (fs : String → Bool) (launch : Nat → Option Nat)
    (curH curM : Nat) (nowStr : String) :
    ∀ (l : List Nat) (acc : AppState × List RecCall) (i : Nat), i ∉ l →
      ((l.foldl (tickStep fs launch curH curM nowStr) acc).1.streams[i]?) =
        acc.1.streams[i]? := by
  intro l
  induction l with
  | nil => intro acc i h; rfl
  | cons a l ih =>
    intro acc i h
    have hne : i ≠ a := fun e => h (e ▸ List.mem_cons_self a l)
    have hnotl : i ∉ l := fun e => h (List.mem_cons_of_mem a e)
    rw [List.foldl_cons, ih _ i hnotl,
      tickStep_getElem?_ne fs launch curH curM nowStr acc a i hne]

theorem foldl_tickStep_length (fs : String → Bool) (launch : Nat → Option Nat)
    (curH curM : Nat) (nowStr : String) :
    ∀ (l : List Nat) (acc : AppState × List RecCall),
      ((l.foldl (tickStep fs launch curH curM nowStr) acc).1.streams.length) =
        acc.1.streams.length := by
  intro l
  induction l with
  | nil => intro acc; rfl
  | cons a l ih =>
    intro acc
    rw [List.foldl_cons, ih _, tickStep_length]

theorem foldl_tickStep_range (fs : String → Bool) (launch : Nat → Option Nat)
    (curH curM : Nat) (nowStr : String) :
    ∀ (n : Nat) (acc : AppState × List RecCall) (i : Nat), i < n →
      (((List.range n).foldl (tickStep fs launch curH curM nowStr) acc).1.streams[i]?) =
        (acc.1.streams[i]?).map (rowAfterTick fs launch curH curM nowStr i) := by
  intro n
  induction n with
  | zero => intro acc i h; exact absurd h (Nat.not_lt_zero i)
  | succ n ih =>
    intro acc i h
    rw [List.range_succ, List.foldl_append, List.foldl_cons, List.foldl_nil]
    rcases Nat.lt_succ_iff_lt_or_eq.1 h with hlt | heq
    · rw [tickStep_getElem?_ne fs launch curH curM nowStr _ n i
        (Nat.ne_of_lt hlt), ih acc i hlt]
    · subst heq
      rw [tickStep_getElem?_self,
        foldl_tickStep_not_mem fs launch curH curM nowStr _ acc i
          (by simp [List.mem_range])]

theorem tick_getElem? (fs : String → Bool) (launch : Nat → Option Nat)
    (curH curM : Nat) (nowStr : String) (s : AppState) (i : Nat)
    (hi : i < s.streams.length) :
    (check_scheduled_streams fs launch curH curM nowStr s).1.streams[i]? =
      (s.streams[i]?).map (rowAfterTick fs launch curH curM nowStr i) := by
  exact foldl_tickStep_range fs launch curH curM nowStr s.streams.length (s, []) i hi

theorem tick_length (fs : String → Bool) (launch : Nat → Option Nat)
    (curH curM : Nat) (nowStr : String) (s : AppState) :
    (check_scheduled_streams fs launch curH curM nowStr s).1.streams.length =
      s.streams.length := by
  exact foldl_tickStep_length fs launch curH curM nowStr _ (s, [])

theorem rowAfterTick_status (fs : String → Bool) (launch : Nat → Option Nat)
    (curH curM : Nat) (nowStr : String) (i : Nat) (row : StreamRow) :
    (rowAfterTick fs launch curH curM nowStr i row).status = row.status ∨
    (rowAfterTick fs launch curH curM nowStr i row).status = "Sedang Live" := by
  by_cases hst : row.status = "Menunggu"
  · cases hdue : isDue row.jamMulai curH curM with
    | none => simp [rowAfterTick, hst, hdue]
    | some b =>
      cases b with
      | false => simp [rowAfterTick, hst, hdue]
      | true =>
        cases hfv : fs row.video with
        | false => simp [rowAfterTick, hst, hdue, hfv]
        | true =>
          cases hl : launch i with
          | none => simp [rowAfterTick, hst, hdue, hfv, hl]
          | some p => simp [rowAfterTick, hst, hdue, hfv, hl]
  · simp [rowAfterTick, hst]

theorem statusInv_tick (s : AppState) (fs : String → Bool)
    (launch : Nat → Option Nat) (curH curM : Nat) (nowStr : String)
    (hinv : statusInv s) :
    statusInv (check_scheduled_streams fs launch curH curM nowStr s).1 := by
  intro j hj
  rw [tick_length] at hj
  obtain ⟨row, hrow⟩ := getElem?_some_of_lt s.streams j hj
  have hchar := tick_getElem? fs launch curH curM nowStr s j hj
  have hsv := hinv j hj
  simp only [rowAt, hrow, Option.getD_some] at hsv
  rcases rowAfterTick_status fs launch curH curM nowStr j row with h | h
  · simp [rowAt, hchar, hrow, h, hsv]
  · simp [rowAt, hchar, hrow, h, statusVocab]

/-- C1: after each of the operations start (`start_stream`), stop
(`stop_stream`) and process-exit reconciliation (`monitor_process`), a
record's status equals the stored Running value `'Sedang Live'` exactly
when the Supervisor's process map holds a handle for the record's index,
exactly when the record's pid field is non-zero.  The hypothesis
`launch ≠ some 0` is the operating-system guarantee that a spawned
process never has pid 0. -/
theorem running_iff_handle_iff_pid (s : AppState) (fs : String → Bool)
    (v : String) (launch : Option Nat) (i : Nat) (bid ch : String)
    (hinv : statusRunningInv s) (hp : launch ≠ some 0)
    (hi : i < s.streams.length) :
    statusRunningInv (start_stream fs v launch (some i) bid ch s).2.1 ∧
    statusRunningInv (stop_stream s i).2.1 ∧
    statusRunningInv (monitor_process s (some i) bid ch).1 :=
  ⟨runningInv_start s fs v launch i bid ch hinv hp hi,
   runningInv_stop s i hinv,
   runningInv_monitor s i bid ch hinv⟩

/-- Witness for C1 at a concrete one-row waiting state. -/
theorem running_iff_handle_iff_pid_witness :
    statusRunningInv exIdleState ∧ (some 5 : Option Nat) ≠ some 0 ∧
    0 < exIdleState.streams.length ∧
    (statusRunningInv (start_stream (fun _ => true) "demo.mp4" (some 5)
        (some 0) "" "default" exIdleState).2.1 ∧
     statusRunningInv (stop_stream exIdleState 0).2.1 ∧
     statusRunningInv (monitor_process exIdleState (some 0) "" "default").1) :=
  ⟨by decide, by decide, by decide,
   running_iff_handle_iff_pid exIdleState (fun _ => true) "demo.mp4" (some 5)
     0 "" "default" (by decide) (by decide) (by decide)⟩

/-- C2: starting a record whose media file does not exist fails with the
media-not-found error, leaves the whole state (hence every record's
status and the registry) unchanged, emits no reconciler call, and creates
no ProcessHandle. -/
theorem start_missing_media_no_mutation (fs : String → Bool) (v : String)
    (launch : Option Nat) (idx : Option Nat) (bid ch : String) (s : AppState)
    (i : Nat) (hfs : fs v = false) :
    start_stream fs v launch idx bid ch s = (StartResult.mediaNotFound, s, []) ∧
    ((start_stream fs v launch idx bid ch s).2.1.streams[i]?).map
      (fun r => r.status) = (s.streams[i]?).map (fun r => r.status) ∧
    procMem (start_stream fs v launch idx bid ch s).2.1.processes i =
      procMem s.processes i := by
  have h := start_state_noFile fs v launch idx bid ch s hfs
  exact ⟨h, by rw [h], by rw [h]⟩

/-- Witness for C2 with an absent media file. -/
theorem start_missing_media_no_mutation_witness :
    ((fun _ => false) : String → Bool) "demo.mp4" = false ∧
    (start_stream (fun _ => false) "demo.mp4" (some 5) (some 0) "" "default"
        exIdleState = (StartResult.mediaNotFound, exIdleState, []) ∧
     ((start_stream (fun _ => false) "demo.mp4" (some 5) (some 0) "" "default"
         exIdleState).2.1.streams[0]?).map (fun r => r.status) =
       (exIdleState.streams[0]?).map (fun r => r.status) ∧
     procMem (start_stream (fun _ => false) "demo.mp4" (some 5) (some 0) ""
         "default" exIdleState).2.1.processes 0 =
       procMem exIdleState.processes 0) :=
  ⟨rfl, start_missing_media_no_mutation (fun _ => false) "demo.mp4" (some 5)
    (some 0) "" "default" exIdleState 0 rfl⟩

/-- C3: the schedule evaluator is always due for the `"NOW"` sentinel, and
for a schedule string that parses to the time-of-day `(th, tm)` it is due
exactly when the current hour is later, or the hours agree and the current
minute is at or past the target minute — only hour and minute are
compared. -/
theorem isDue_spec (sched : String) (th tm h m : Nat)
    (hp : parseSchedule sched = some (th, tm)) :
    isDue "NOW" h m = some true ∧
    (isDue sched h m = some true ↔ (h > th ∨ (h = th ∧ m ≥ tm))) := by
  constructor
  · simp [isDue]
  · have hnow : sched ≠ "NOW" := by
      intro e
      rw [e] at hp
      have hn : parseSchedule "NOW" = none := by decide
      rw [hn] at hp
      exact Option.noConfusion hp
    simp [isDue, hnow, hp]

/-- Witness for C3 at the schedule `09:00 WIB` and current time 10:30. -/
theorem isDue_spec_witness :
    parseSchedule "09:00 WIB" = some (9, 0) ∧
    (isDue "NOW" 10 30 = some true ∧
     (isDue "09:00 WIB" 10 30 = some true ↔ (10 > 9 ∨ (10 = 9 ∧ 30 ≥ 0)))) :=
  ⟨by decide, isDue_spec "09:00 WIB" 9 0 10 30 (by decide)⟩

/-- C4 counterexample: after a successful start, the status value persisted
by `save_stream_config` is the localized string `'Sedang Live'`, which is
not one of the four strings `Waiting|Running|Stopped|Finished` the claim
allows. -/
theorem status_localized_cex :
    ((save_stream_config (start_stream (fun _ => true) "demo.mp4" (some 5)
        (some 0) "" "default" exIdleState).2.1.streams).rows[0]?).map
      (fun r => r.status) = some "Sedang Live" ∧
    ¬ ("Sedang Live" ∈ (["Waiting", "Running", "Stopped", "Finished"] : List String)) := by
  decide

/-- C4 (amended): every status value written to the registry by the
lifecycle operations (start, stop, exit-monitor, add, scheduler tick) is
one of the four localized strings `Menunggu`, `Sedang Live`, `Selesai`,
`Dihentikan`; these localized display names, not the spec's English
names, are exactly what the persisted record stores. -/
theorem status_vocabulary_closed (s : AppState) (fs : String → Bool)
    (v : String) (launch : Option Nat) (launchF : Nat → Option Nat)
    (i curH curM : Nat) (nowStr bid ch v2 k2 t2 q2 : String) (sh : Bool)
    (hinv : statusInv s) :
    statusInv (start_stream fs v launch (some i) bid ch s).2.1 ∧
    statusInv (stop_stream s i).2.1 ∧
    statusInv (monitor_process s (some i) bid ch).1 ∧
    statusInv (add_stream s v2 k2 t2 sh q2 bid ch) ∧
    statusInv (check_scheduled_streams fs launchF curH curM nowStr s).1 :=
  ⟨statusInv_start s fs v launch i bid ch hinv,
   statusInv_stop s i hinv,
   statusInv_monitor s i bid ch hinv,
   statusInv_add s v2 k2 t2 sh q2 bid ch hinv,
   statusInv_tick s fs launchF curH curM nowStr hinv⟩

/-- Witness for the amended C4 at a concrete one-row waiting state. -/
theorem status_vocabulary_closed_witness :
    statusInv exIdleState ∧
    (statusInv (start_stream (fun _ => true) "demo.mp4" (some 5) (some 0) ""
        "default" exIdleState).2.1 ∧
     statusInv (stop_stream exIdleState 0).2.1 ∧
     statusInv (monitor_process exIdleState (some 0) "" "default").1 ∧
     statusInv (add_stream exIdleState "x.mp4" "k2" "07:00 WIB" false "360p"
        "" "default") ∧
     statusInv (check_scheduled_streams (fun _ => true) (fun _ => some 7)
        10 0 "10:00 WIB" exIdleState).1) :=
  ⟨by decide,
   status_vocabulary_closed exIdleState (fun _ => true) "demo.mp4" (some 5)
     (fun _ => some 7) 0 10 0 "10:00 WIB" "" "default" "x.mp4" "k2"
     "07:00 WIB" "360p" false (by decide)⟩

/-- C5 counterexample: with previous snapshot `"a"` and new snapshot
`"bc"`, a crash after the truncation step (one completed primitive step)
leaves the file empty — neither the previous nor the new snapshot. -/
theorem persist_not_atomic_cex :
    ¬ (fileDuringSave ['a'] ['b', 'c'] 1 = ['a'] ∨
       fileDuringSave ['a'] ['b', 'c'] 1 = ['b', 'c']) := by
  decide

/-- C5 (amended): `save_stream_config` writes the registry file in place
(truncate, then stream the bytes): a completed save holds the full
snapshot, a crash after `k ≥ 1` primitive steps leaves the prefix of the
new snapshot written so far (empty right after truncation), and only a
crash before the `open` call preserves the previous snapshot. -/
theorem persist_in_place_semantics (old new : List Char) (k : Nat)
    (h1 : 1 ≤ k) :
    fileDuringSave old new (new.length + 1) = new ∧
    fileDuringSave old new k = new.take (k - 1) ∧
    fileDuringSave old new 0 = old := by
  refine ⟨?_, ?_, ?_⟩
  · simp [fileDuringSave, take_length_self]
  · have hk : k ≠ 0 := by omega
    simp [fileDuringSave, hk]
  · simp [fileDuringSave]

/-- Witness for the amended C5. -/
theorem persist_in_place_semantics_witness :
    1 ≤ 1 ∧
    (fileDuringSave ['a'] ['b', 'c'] (['b', 'c'].length + 1) = ['b', 'c'] ∧
     fileDuringSave ['a'] ['b', 'c'] 1 = ['b', 'c'].take (1 - 1) ∧
     fileDuringSave ['a'] ['b', 'c'] 0 = ['a']) :=
  ⟨by decide, persist_in_place_semantics ['a'] ['b', 'c'] 1 (by decide)⟩

/-- C6 counterexample: for the 24-fps profile `240p` the built encoder
command uses GOP 60 (the argument following `-g`), while twice the
profile's frame rate is 48. -/
theorem gop_not_twice_fps_cex :
    (run_ffmpeg_cmd "demo.mp4" "key" "240p")[21]? = some "60" ∧
    (quality_settings "240p").fps = "24" ∧
    2 * 24 = 48 ∧ ("60" : String) ≠ "48" := by
  decide

/-- C6 (amended): for every quality profile the encoder invocation uses the
constant keyframe interval 60 (`-g 60` with `-keyint_min 60`) and disables
scene-cut detection (`-sc_threshold 0`); the GOP equals twice the frame
rate only for the 30-fps profiles. -/
theorem gop_constant_sixty (video_path streaming_key quality : String) :
    (run_ffmpeg_cmd video_path streaming_key quality)[20]? = some "-g" ∧
    (run_ffmpeg_cmd video_path streaming_key quality)[21]? = some "60" ∧
    (run_ffmpeg_cmd video_path streaming_key quality)[22]? = some "-keyint_min" ∧
    (run_ffmpeg_cmd video_path streaming_key quality)[23]? = some "60" ∧
    (run_ffmpeg_cmd video_path streaming_key quality)[24]? = some "-sc_threshold" ∧
    (run_ffmpeg_cmd video_path streaming_key quality)[25]? = some "0" :=
  ⟨rfl, rfl, rfl, rfl, rfl, rfl⟩

/-- C7: saving and reloading a registry restores it field for field;
loading with no file yields the empty registry; and a loaded file that
lacks the optional columns back-fills `Channel` to `"default"`, `Quality`
to `"720p"`, `Broadcast ID` to `""`, and `PID` to 0 on every loaded row. -/
theorem load_save_round_trip (streams : List StreamRow) (cfg : SavedConfig)
    (row : StreamRow)
    (hrow : row ∈ load_stream_config (some cfg))
    (hch : cfg.cols.channel = false) (hq : cfg.cols.quality = false)
    (hb : cfg.cols.broadcastId = false) (hp : cfg.cols.pid = false) :
    load_stream_config (some (save_stream_config streams)) = streams ∧
    load_stream_config none = [] ∧
    row.channel = "default" ∧ row.quality = "720p" ∧
    row.broadcastId = "" ∧ row.pid = 0 := by
  have hfill : ∃ r, fillMissing cfg.cols r = row := by
    unfold load_stream_config at hrow
    cases hE : cfg.rows.isEmpty with
    | true => simp [hE] at hrow
    | false =>
      simp only [hE, Bool.false_eq_true, if_false] at hrow
      obtain ⟨r, _, he⟩ := List.mem_map.1 hrow
      exact ⟨r, he⟩
  obtain ⟨r, he⟩ := hfill
  refine ⟨?_, rfl, ?_, ?_, ?_, ?_⟩
  · have hid : fillMissing allColumns = id := funext fillMissing_allColumns
    cases streams with
    | nil => simp [load_stream_config, save_stream_config]
    | cons a as =>
      simp [load_stream_config, save_stream_config, hid]
  · rw [← he]; simp [fillMissing, hch]
  · rw [← he]; simp [fillMissing, hq]
  · rw [← he]; simp [fillMissing, hb]
  · rw [← he]; simp [fillMissing, hp]

/-- Witness for C7 with a two-row registry and a file lacking the four
optional columns. -/
theorem load_save_round_trip_witness :
    exWaitingRow ∈ load_stream_config (some exPartialConfig) ∧
    exPartialConfig.cols.channel = false ∧
    exPartialConfig.cols.quality = false ∧
    exPartialConfig.cols.broadcastId = false ∧
    exPartialConfig.cols.pid = false ∧
    (load_stream_config (some (save_stream_config exTickState.streams)) =
      exTickState.streams ∧
     load_stream_config none = [] ∧
     exWaitingRow.channel = "default" ∧ exWaitingRow.quality = "720p" ∧
     exWaitingRow.broadcastId = "" ∧ exWaitingRow.pid = 0) :=
  ⟨by decide, by decide, by decide, by decide, by decide,
   load_save_round_trip exTickState.streams exPartialConfig exWaitingRow
     (by decide) (by decide) (by decide) (by decide) (by decide)⟩

/-- C8 counterexample: stopping an id that has no ProcessHandle returns
Python `None` (a falsy value, modelled `none`), not the `True` success
value that the stop path returns, so the operation does not "return
success" as claimed. -/
theorem stop_no_handle_returns_none_cex :
    procMem exIdleState.processes 0 = false ∧
    (stop_stream exIdleState 0).1 = none ∧
    (stop_stream exIdleState 0).1 ≠ some true := by
  decide

/-- C8 (amended): stopping an id that has no ProcessHandle is a no-op that
raises no error and leaves the record, the registry and the process map
unchanged and makes no reconciler call — but it falls off the end of
`stop_stream` and returns `None` (falsy) rather than the `True` success
value. -/
theorem stop_no_handle_noop (s : AppState) (i : Nat)
    (h : procMem s.processes i = false) :
    stop_stream s i = (none, s, []) :=
  stop_state_nomem s i h

/-- Witness for the amended C8. -/
theorem stop_no_handle_noop_witness :
    procMem exIdleState.processes 0 = false ∧
    stop_stream exIdleState 0 = (none, exIdleState, []) :=
  ⟨by decide, stop_no_handle_noop exIdleState 0 (by decide)⟩

/-- C9: one scheduler tick evaluates every record independently — the
resulting row at each index is exactly the isolated per-row outcome
`rowAfterTick`, so an error on one record cannot affect any other record
in the same tick — and a record whose schedule string fails to parse (and
is not the `"NOW"` sentinel) is left unchanged, treated as not yet due,
instead of crashing the loop. -/
theorem tick_isolates_record_errors (fs : String → Bool)
    (launch : Nat → Option Nat) (curH curM : Nat) (nowStr : String)
    (s : AppState) (i : Nat) (row : StreamRow)
    (hi : i < s.streams.length) :
    (check_scheduled_streams fs launch curH curM nowStr s).1.streams[i]? =
      (s.streams[i]?).map (rowAfterTick fs launch curH curM nowStr i) ∧
    (s.streams[i]? = some row → row.jamMulai ≠ "NOW" →
      parseSchedule row.jamMulai = none →
      (check_scheduled_streams fs launch curH curM nowStr s).1.streams[i]? =
        some row) := by
  have hchar := tick_getElem? fs launch curH curM nowStr s i hi
  refine ⟨hchar, ?_⟩
  intro hrow hnow hparse
  rw [hchar, hrow]
  have hdue : isDue row.jamMulai curH curM = none := by
    simp [isDue, hnow, hparse]
  by_cases hst : row.status = "Menunggu" <;>
    simp [rowAfterTick, hst, hdue]

/-- Witness for C9: in a three-row state whose middle row has the malformed
schedule `"garbage"`, the tick leaves that row unchanged while the
characterization still holds at its index. -/
theorem tick_isolates_record_errors_witness :
    1 < exTickState.streams.length ∧
    ((check_scheduled_streams (fun _ => true) (fun _ => some 7) 10 0
        "10:00 WIB" exTickState).1.streams[1]? =
      (exTickState.streams[1]?).map
        (rowAfterTick (fun _ => true) (fun _ => some 7) 10 0 "10:00 WIB" 1) ∧
     (exTickState.streams[1]? = some exBadRow → exBadRow.jamMulai ≠ "NOW" →
      parseSchedule exBadRow.jamMulai = none →
      (check_scheduled_streams (fun _ => true) (fun _ => some 7) 10 0
          "10:00 WIB" exTickState).1.streams[1]? = some exBadRow)) :=
  ⟨by decide,
   tick_isolates_record_errors (fun _ => true) (fun _ => some 7) 10 0
     "10:00 WIB" exTickState 1 exBadRow (by decide)⟩

/-- C10: once a successful stop has removed a record's ProcessHandle, the
exit watcher for that record is a no-op — its update is guarded by
membership in the process map, so the user-stopped record keeps status
`'Dihentikan'` (it is never overwritten to `'Selesai'`) and the watcher
makes no second broadcast-complete call. -/
theorem watcher_noop_after_stop (s : AppState) (i : Nat) (bid ch : String)
    (row : StreamRow) (hrow : s.streams[i]? = some row)
    (hmem : procMem s.processes i = true) :
    monitor_process (stop_stream s i).2.1 (some i) bid ch =
      ((stop_stream s i).2.1, []) ∧
    ((stop_stream s i).2.1.streams[i]?).map (fun r => r.status) =
      some "Dihentikan" := by
  rw [stop_state_mem s i row hmem hrow]
  constructor
  · exact monitor_state_nomem _ i bid ch (procMem_procErase_self s.processes i)
  · simp [updateAt_getElem?, hrow]

/-- Witness for C10 at a concrete running state. -/
theorem watcher_noop_after_stop_witness :
    exRunState.streams[0]? = some exRunRow ∧
    procMem exRunState.processes 0 = true ∧
    (monitor_process (stop_stream exRunState 0).2.1 (some 0) "bc1" "default" =
      ((stop_stream exRunState 0).2.1, []) ∧
     ((stop_stream exRunState 0).2.1.streams[0]?).map (fun r => r.status) =
       some "Dihentikan") :=
  ⟨by decide, by decide,
   watcher_noop_after_stop exRunState 0 "bc1" "default" exRunRow
     (by decide) (by decide)⟩
